import Mathlib

/-!
Shallow embedding of the simulated-clock engine of `src/app/page.tsx`
(`legs-info`).  JavaScript `number` arithmetic on the inputs the engine
receives (integral milliseconds, the constants of the module) is exact, so it
is modelled by `ℚ`; the JavaScript `%` operator is a truncating remainder and
`Math.floor` is the mathematical floor, both modelled explicitly below.
-/

namespace LegsInfo

/-- Truncation toward zero on `ℚ`, the rounding used by the JavaScript `%`
operator on numbers (`Math.trunc` of the quotient): floor for non-negative
arguments, ceiling for negative ones. -/
def jsTrunc (q : ℚ) : ℤ := if 0 ≤ q then ⌊q⌋ else ⌈q⌉

/-- The JavaScript remainder `a % b` on numbers: `a - b * trunc (a / b)`. -/
def jsRem (a b : ℚ) : ℚ := a - b * (jsTrunc (a / b) : ℚ)

/-- The double-remainder idiom `((a % b) + b) % b` used by the source to
normalize a value into `[0, b)`. -/
def jsWrap (a b : ℚ) : ℚ := jsRem (jsRem a b + b) b

/-- Mathematical (floor-based) modulo on `ℚ`: the specification's notion of a
"true modulo", stated from the spec's words for comparison with the code's
double-remainder idiom. -/
def trueMod (a b : ℚ) : ℚ := a - b * ⌊a / b⌋

-- Constants of `src/app/page.tsx` (lines 34-43).
def MINECRAFT_CYCLE_SECONDS : ℚ := 1200
def MINECRAFT_DAY_SECONDS : ℚ := 600
def MINECRAFT_DUSK_SECONDS : ℚ := 90
def MINECRAFT_NIGHT_SECONDS : ℚ := 420
def MINECRAFT_DAWN_SECONDS : ℚ := 90
def MINECRAFT_HOUR_SECONDS : ℚ := 50
def MINECRAFT_MINUTES_PER_DAY : ℚ := 24 * 60
def MINECRAFT_SECONDS_PER_REAL_SECOND : ℚ :=
  (60 * 60) / MINECRAFT_HOUR_SECONDS
def MINECRAFT_SECONDS_PER_DAY : ℚ := MINECRAFT_MINUTES_PER_DAY * 60

/-- Embedding of `formatTwoDigits` (line 45):
`value.toString().padStart(2, "0")`; its arguments in the engine are always
mathematical integers. -/
def formatTwoDigits (value : ℤ) : String :=
  let s := toString value
  String.mk (List.replicate (2 - s.length) '0') ++ s

/-- Embedding of the `MinecraftPhaseDetails` object type (lines 47-50); the
`timeLabel` field has TypeScript type `string | null`. -/
structure MinecraftPhaseDetails where
  phase : String
  timeLabel : Option String
deriving DecidableEq

/-- Embedding of `getMinecraftPhaseFromMinutes` (lines 72-103).  The source
normalizes with `((minutes % 1440) + 1440) % 1440`, which is `jsWrap`. -/
def getMinecraftPhaseFromMinutes (minutes : ℚ) : MinecraftPhaseDetails :=
  let normalizedMinutes := jsWrap minutes MINECRAFT_MINUTES_PER_DAY
  let timeLabel :=
    formatTwoDigits ⌊normalizedMinutes / 60⌋ ++ ":" ++
      formatTwoDigits ⌊jsRem normalizedMinutes 60⌋
  if 273 ≤ normalizedMinutes ∧ normalizedMinutes < 387 then
    ⟨"Aube", some timeLabel⟩
  else if 387 ≤ normalizedMinutes ∧ normalizedMinutes < 1057 then
    ⟨"Jour", some timeLabel⟩
  else if 1057 ≤ normalizedMinutes ∧ normalizedMinutes < 1188 then
    ⟨"Crépuscule", some timeLabel⟩
  else
    ⟨"Nuit", some timeLabel⟩

/-- Embedding of `getPhasePreviewFromMinutes` (lines 105-107), an alias. -/
def getPhasePreviewFromMinutes (totalMinutes : ℚ) : MinecraftPhaseDetails :=
  getMinecraftPhaseFromMinutes totalMinutes

/-- Embedding of `normalizeMinecraftSeconds` (lines 109-111):
`((seconds % 86400) + 86400) % 86400`, which is `jsWrap`. -/
def normalizeMinecraftSeconds (seconds : ℚ) : ℚ :=
  jsWrap seconds MINECRAFT_SECONDS_PER_DAY

/-- Embedding of the `SpawnTimerRow` row type (lines 9-15); every field is
nullable.  The `id` field (TypeScript `number | string | null`) plays no role
in the engine and is modelled as a nullable string. -/
structure SpawnTimerRow where
  id : Option String
  text : Option String
  next_spawn : Option String
  ingame_time : Option String
  ingame_time_saved_at : Option String

/-- Splitting of a character list at every occurrence of a separator
character, keeping empty pieces, as JavaScript `String.prototype.split` does
with a one-character separator string. -/
def splitOnCharAux (sep : Char) : List Char → List (List Char)
  | [] => [[]]
  | c :: cs =>
    if c = sep then [] :: splitOnCharAux sep cs
    else
      match splitOnCharAux sep cs with
      | [] => [[c]]
      | p :: ps => (c :: p) :: ps

/-- Embedding of the JavaScript call `s.split(sep)` for a one-character
separator (the source only ever splits on `":"`):
`"a:b:c".split(":") = ["a","b","c"]`, `"".split(":") = [""]`,
`"a:".split(":") = ["a",""]`. -/
def jsSplit (s : String) (sep : Char) : List String :=
  (splitOnCharAux sep s.toList).map (fun l => String.mk l)

/-- Embedding of `Number.parseInt(s, 10)`: skip leading whitespace, read an
optional sign, then the longest prefix of decimal digits; `none` models the
`NaN` result when no digit is found. -/
def jsParseInt (s : String) : Option ℤ :=
  let t := s.toList.dropWhile (fun c => c.isWhitespace)
  match t with
  | [] => none
  | c :: rest =>
    let signAndDigits : ℤ × List Char :=
      if c = '-' then (-1, rest)
      else if c = '+' then (1, rest)
      else (1, c :: rest)
    let ds := signAndDigits.2.takeWhile (fun c => c.isDigit)
    if ds = [] then none
    else
      some (signAndDigits.1 *
        ds.foldl (fun acc c => acc * 10 + ((c.toNat : ℤ) - 48)) 0)

/-- Result object of `deriveLiveMinecraftClock` (line 116). -/
structure LiveClockResult where
  clock : String
  phaseDetails : MinecraftPhaseDetails
deriving DecidableEq

/-- Embedding of `deriveLiveMinecraftClock` (lines 113-163).  Timestamps are
integral epoch milliseconds; `parseDate` abstracts `new Date(s).getTime()`,
returning `none` for `NaN` (an unparseable string).  The JavaScript falsiness
tests `!row?.ingame_time` etc. are `none`-or-empty-string tests; destructuring
`split(":")` past the end yields `undefined`, hence the paired option
lookups. -/
def deriveLiveMinecraftClock (parseDate : String → Option ℤ)
    (row : Option SpawnTimerRow) (nowMs : ℤ) : Option LiveClockResult :=
  match row with
  | none => none
  | some r =>
    match r.ingame_time, r.ingame_time_saved_at with
    | some it, some sa =>
      if it = "" ∨ sa = "" then none
      else
        match parseDate sa with
        | none => none
        | some savedAtMs =>
          match (jsSplit it ':')[0]?, (jsSplit it ':')[1]? with
          | some hoursPart, some minutesPart =>
            if hoursPart = "" ∨ minutesPart = "" then none
            else
              match jsParseInt hoursPart, jsParseInt minutesPart with
              | some hours, some minutes =>
                if hours < 0 ∨ hours > 23 ∨ minutes < 0 ∨ minutes > 59 then
                  none
                else
                  let baseSeconds : ℚ := ((hours * 60 + minutes) * 60 : ℤ)
                  let elapsedRealSeconds : ℚ :=
                    max 0 (((nowMs - savedAtMs : ℤ) : ℚ) / 1000)
                  let elapsedMinecraftSeconds :=
                    elapsedRealSeconds * MINECRAFT_SECONDS_PER_REAL_SECOND
                  let totalSeconds := baseSeconds + elapsedMinecraftSeconds
                  let normalizedSeconds := normalizeMinecraftSeconds totalSeconds
                  let currentHours : ℤ :=
                    Int.tmod ⌊normalizedSeconds / 3600⌋ 24
                  let currentMinutes : ℤ :=
                    ⌊jsRem normalizedSeconds 3600 / 60⌋
                  some
                    { clock :=
                        formatTwoDigits currentHours ++ ":" ++
                          formatTwoDigits currentMinutes
                      phaseDetails :=
                        getPhasePreviewFromMinutes (normalizedSeconds / 60) }
              | _, _ => none
          | _, _ => none
    | _, _ => none

/-- Embedding of `deriveMinecraftClockAtDate` (lines 165-205); `targetMs` is
`target.getTime()` of the `Date` argument, in epoch milliseconds. -/
def deriveMinecraftClockAtDate (parseDate : String → Option ℤ)
    (row : Option SpawnTimerRow) (targetMs : ℤ) :
    Option MinecraftPhaseDetails :=
  match row with
  | none => none
  | some r =>
    match r.ingame_time, r.ingame_time_saved_at with
    | some it, some sa =>
      if it = "" ∨ sa = "" then none
      else
        match parseDate sa with
        | none => none
        | some savedAtMs =>
          match (jsSplit it ':')[0]?, (jsSplit it ':')[1]? with
          | some hoursPart, some minutesPart =>
            if hoursPart = "" ∨ minutesPart = "" then none
            else
              match jsParseInt hoursPart, jsParseInt minutesPart with
              | some hours, some minutes =>
                if hours < 0 ∨ hours > 23 ∨ minutes < 0 ∨ minutes > 59 then
                  none
                else
                  let baseMinutes : ℚ := ((hours * 60 + minutes : ℤ) : ℚ)
                  let elapsedRealSeconds : ℚ :=
                    max 0 (((targetMs - savedAtMs : ℤ) : ℚ) / 1000)
                  let elapsedMinecraftMinutes :=
                    elapsedRealSeconds * (60 / MINECRAFT_HOUR_SECONDS)
                  let totalMinutes := baseMinutes + elapsedMinecraftMinutes
                  some (getMinecraftPhaseFromMinutes totalMinutes)
              | _, _ => none
          | _, _ => none
    | _, _ => none

/-- The value produced by `deriveLiveMinecraftClock` on its success path, as a
function of the parsed reference hour and minute, the parsed save instant and
the query instant (both in epoch milliseconds). -/
def liveSuccess (H M t0 nowMs : ℤ) : LiveClockResult :=
  let baseSeconds : ℚ := ((H * 60 + M) * 60 : ℤ)
  let elapsedRealSeconds : ℚ := max 0 (((nowMs - t0 : ℤ) : ℚ) / 1000)
  let elapsedMinecraftSeconds :=
    elapsedRealSeconds * MINECRAFT_SECONDS_PER_REAL_SECOND
  let totalSeconds := baseSeconds + elapsedMinecraftSeconds
  let normalizedSeconds := normalizeMinecraftSeconds totalSeconds
  { clock :=
      formatTwoDigits (Int.tmod ⌊normalizedSeconds / 3600⌋ 24) ++ ":" ++
        formatTwoDigits ⌊jsRem normalizedSeconds 3600 / 60⌋
    phaseDetails := getPhasePreviewFromMinutes (normalizedSeconds / 60) }

/-- The value produced by `deriveMinecraftClockAtDate` on its success path. -/
def atDateSuccess (H M t0 targetMs : ℤ) : MinecraftPhaseDetails :=
  let baseMinutes : ℚ := ((H * 60 + M : ℤ) : ℚ)
  let elapsedRealSeconds : ℚ := max 0 (((targetMs - t0 : ℤ) : ℚ) / 1000)
  let elapsedMinecraftMinutes :=
    elapsedRealSeconds * (60 / MINECRAFT_HOUR_SECONDS)
  getMinecraftPhaseFromMinutes (baseMinutes + elapsedMinecraftMinutes)

/-- Test fixture: a date parser knowing exactly the instant
2024-01-01T00:00:00Z (epoch milliseconds 1704067200000). -/
def parseDateJan2024 : String → Option ℤ := fun s =>
  if s = "2024-01-01T00:00:00Z" then some 1704067200000 else none

/-- Test fixture: a reference row observed at 06:00 in-game time on
2024-01-01T00:00:00Z. -/
def rowJan2024 : SpawnTimerRow :=
  ⟨none, none, none, some "06:00", some "2024-01-01T00:00:00Z"⟩

/-- Test fixture: the result the live clock produces in the specification's
concrete scenario. -/
def resJan2024 : LiveClockResult := ⟨"06:32", ⟨"Jour", some "06:32"⟩⟩

/-! ### Arithmetic toolkit

The JavaScript remainder is truncation-based; the double-remainder idiom
`((a % b) + b) % b` used by the source coincides with the mathematical
(floor-based) modulo, proved here once and reused by every claim. -/

theorem jsTrunc_of_nonneg {q : ℚ} (h : 0 ≤ q) : jsTrunc q = ⌊q⌋ := if_pos h

theorem jsTrunc_of_not_nonneg {q : ℚ} (h : ¬ 0 ≤ q) : jsTrunc q = ⌈q⌉ :=
  if_neg h

theorem trueMod_nonneg {b : ℚ} (hb : 0 < b) (a : ℚ) : 0 ≤ trueMod a b := by
  have h1 : (⌊a / b⌋ : ℚ) ≤ a / b := Int.floor_le _
  have h2 : b * ((⌊a / b⌋ : ℚ)) ≤ b * (a / b) :=
    mul_le_mul_of_nonneg_left h1 hb.le
  have h3 : b * (a / b) = a := by field_simp
  unfold trueMod
  linarith

theorem trueMod_lt {b : ℚ} (hb : 0 < b) (a : ℚ) : trueMod a b < b := by
  have h1 : a / b < ⌊a / b⌋ + 1 := Int.lt_floor_add_one _
  have h2 : b * (a / b) < b * ((⌊a / b⌋ : ℚ) + 1) := by
    exact mul_lt_mul_of_pos_left h1 hb
  have h3 : b * (a / b) = a := by field_simp
  have h4 : b * ((⌊a / b⌋ : ℚ) + 1) = b * (⌊a / b⌋ : ℚ) + b := by ring
  unfold trueMod
  linarith

theorem trueMod_eq_self {a b : ℚ} (hb : 0 < b) (h0 : 0 ≤ a) (h1 : a < b) :
    trueMod a b = a := by
  have h : ⌊a / b⌋ = 0 := by
    rw [Int.floor_eq_zero_iff, Set.mem_Ico]
    exact ⟨div_nonneg h0 hb.le, (div_lt_one hb).mpr h1⟩
  unfold trueMod
  rw [h]
  push_cast
  ring

theorem trueMod_add_int_mul {b : ℚ} (hb : 0 < b) (a : ℚ) (k : ℤ) :
    trueMod (a + k * b) b = trueMod a b := by
  unfold trueMod
  have h : (a + (k : ℚ) * b) / b = a / b + (k : ℚ) := by
    field_simp
  rw [h, Int.floor_add_int]
  push_cast
  ring

theorem jsRem_eq_trueMod {a b : ℚ} (ha : 0 ≤ a) (hb : 0 < b) :
    jsRem a b = trueMod a b := by
  unfold jsRem trueMod
  rw [jsTrunc_of_nonneg (div_nonneg ha hb.le)]

theorem jsWrap_eq_trueMod {b : ℚ} (hb : 0 < b) (a : ℚ) :
    jsWrap a b = trueMod a b := by
  rcases le_or_lt 0 a with ha | ha
  · have h0 : 0 ≤ trueMod a b := trueMod_nonneg hb a
    have h1 : trueMod a b < b := trueMod_lt hb a
    rw [jsWrap, jsRem_eq_trueMod ha hb, jsRem_eq_trueMod (by linarith) hb]
    have h2 : trueMod a b + b = trueMod a b + ((1 : ℤ) : ℚ) * b := by
      push_cast
      ring
    rw [h2, trueMod_add_int_mul hb, trueMod_eq_self hb h0 h1]
  · have hq : a / b < 0 := div_neg_of_neg_of_pos ha hb
    have hc1 : a / b ≤ (⌈a / b⌉ : ℚ) := Int.le_ceil _
    have hc2 : (⌈a / b⌉ : ℚ) < a / b + 1 := Int.ceil_lt_add_one _
    have hba : b * (a / b) = a := by field_simp
    have hm1 : b * (a / b) ≤ b * (⌈a / b⌉ : ℚ) :=
      mul_le_mul_of_nonneg_left hc1 hb.le
    have hm2 : b * ((⌈a / b⌉ : ℚ)) < b * (a / b + 1) := by
      exact mul_lt_mul_of_pos_left hc2 hb
    have hm3 : b * (a / b + 1) = b * (a / b) + b := by ring
    have hrem : jsRem a b = a - b * ((⌈a / b⌉ : ℤ) : ℚ) := by
      rw [jsRem, jsTrunc_of_not_nonneg (not_le.mpr hq)]
    have h3 : a - b * ((⌈a / b⌉ : ℤ) : ℚ) + b =
        a + (((1 - ⌈a / b⌉ : ℤ)) : ℚ) * b := by
      push_cast
      ring
    rw [jsWrap, hrem, jsRem_eq_trueMod (by linarith) hb, h3,
      trueMod_add_int_mul hb]

theorem jsWrap_nonneg {b : ℚ} (hb : 0 < b) (a : ℚ) : 0 ≤ jsWrap a b := by
  rw [jsWrap_eq_trueMod hb]
  exact trueMod_nonneg hb a

theorem jsWrap_lt {b : ℚ} (hb : 0 < b) (a : ℚ) : jsWrap a b < b := by
  rw [jsWrap_eq_trueMod hb]
  exact trueMod_lt hb a

theorem jsWrap_eq_self {a b : ℚ} (hb : 0 < b) (h0 : 0 ≤ a) (h1 : a < b) :
    jsWrap a b = a := by
  rw [jsWrap_eq_trueMod hb]
  exact trueMod_eq_self hb h0 h1

theorem jsWrap_add_int_mul {b : ℚ} (hb : 0 < b) (a : ℚ) (k : ℤ) :
    jsWrap (a + k * b) b = jsWrap a b := by
  rw [jsWrap_eq_trueMod hb, jsWrap_eq_trueMod hb, trueMod_add_int_mul hb]

theorem jsWrap_intCast (n : ℤ) (N : ℕ) (hN : 0 < N) :
    jsWrap (n : ℚ) (N : ℚ) = ((n % (N : ℤ) : ℤ) : ℚ) := by
  have hNQ : (0 : ℚ) < (N : ℚ) := by exact_mod_cast hN
  rw [jsWrap_eq_trueMod hNQ]
  unfold trueMod
  rw [Rat.floor_intCast_div_natCast, Int.emod_def]
  push_cast
  ring

theorem floor_eval {q : ℚ} {n : ℤ} (h1 : (n : ℚ) ≤ q) (h2 : q < n + 1) :
    ⌊q⌋ = n :=
  Int.floor_eq_iff.mpr ⟨h1, h2⟩

theorem MINECRAFT_MINUTES_PER_DAY_eq : MINECRAFT_MINUTES_PER_DAY = 1440 := by
  norm_num [MINECRAFT_MINUTES_PER_DAY]

theorem MINECRAFT_SECONDS_PER_DAY_eq : MINECRAFT_SECONDS_PER_DAY = 86400 := by
  norm_num [MINECRAFT_SECONDS_PER_DAY, MINECRAFT_MINUTES_PER_DAY]

theorem MINECRAFT_SECONDS_PER_REAL_SECOND_eq :
    MINECRAFT_SECONDS_PER_REAL_SECOND = 72 := by
  norm_num [MINECRAFT_SECONDS_PER_REAL_SECOND, MINECRAFT_HOUR_SECONDS]

/-! ### Structural lemmas about the two derivation operations -/

theorem deriveLive_of_valid (pd : String → Option ℤ) (r : SpawnTimerRow)
    (nowMs t0 : ℤ) (ts sa hp mp : String) (H M : ℤ)
    (h1 : r.ingame_time = some ts) (h2 : r.ingame_time_saved_at = some sa)
    (h3 : ts ≠ "") (h4 : sa ≠ "") (h5 : pd sa = some t0)
    (h6 : (jsSplit ts ':')[0]? = some hp)
    (h7 : (jsSplit ts ':')[1]? = some mp)
    (h8 : hp ≠ "") (h9 : mp ≠ "")
    (h10 : jsParseInt hp = some H) (h11 : jsParseInt mp = some M)
    (h12 : 0 ≤ H) (h13 : H ≤ 23) (h14 : 0 ≤ M) (h15 : M ≤ 59) :
    deriveLiveMinecraftClock pd (some r) nowMs =
      some (liveSuccess H M t0 nowMs) := by
  have hrange : ¬(H < 0 ∨ H > 23 ∨ M < 0 ∨ M > 59) := by omega
  simp [deriveLiveMinecraftClock, liveSuccess, h1, h2, h3, h4, h5, h6, h7,
    h8, h9, h10, h11, hrange]

theorem deriveAtDate_of_valid (pd : String → Option ℤ) (r : SpawnTimerRow)
    (targetMs t0 : ℤ) (ts sa hp mp : String) (H M : ℤ)
    (h1 : r.ingame_time = some ts) (h2 : r.ingame_time_saved_at = some sa)
    (h3 : ts ≠ "") (h4 : sa ≠ "") (h5 : pd sa = some t0)
    (h6 : (jsSplit ts ':')[0]? = some hp)
    (h7 : (jsSplit ts ':')[1]? = some mp)
    (h8 : hp ≠ "") (h9 : mp ≠ "")
    (h10 : jsParseInt hp = some H) (h11 : jsParseInt mp = some M)
    (h12 : 0 ≤ H) (h13 : H ≤ 23) (h14 : 0 ≤ M) (h15 : M ≤ 59) :
    deriveMinecraftClockAtDate pd (some r) targetMs =
      some (atDateSuccess H M t0 targetMs) := by
  have hrange : ¬(H < 0 ∨ H > 23 ∨ M < 0 ∨ M > 59) := by omega
  simp [deriveMinecraftClockAtDate, atDateSuccess, h1, h2, h3, h4, h5, h6,
    h7, h8, h9, h10, h11, hrange]

theorem deriveLive_inv {pd : String → Option ℤ} {r : SpawnTimerRow}
    {nowMs : ℤ} {res : LiveClockResult}
    (hres : deriveLiveMinecraftClock pd (some r) nowMs = some res) :
    ∃ (ts sa hp mp : String) (H M t0 : ℤ),
      r.ingame_time = some ts ∧ r.ingame_time_saved_at = some sa ∧
      ts ≠ "" ∧ sa ≠ "" ∧ pd sa = some t0 ∧
      (jsSplit ts ':')[0]? = some hp ∧ (jsSplit ts ':')[1]? = some mp ∧
      hp ≠ "" ∧ mp ≠ "" ∧
      jsParseInt hp = some H ∧ jsParseInt mp = some M ∧
      0 ≤ H ∧ H ≤ 23 ∧ 0 ≤ M ∧ M ≤ 59 ∧
      res = liveSuccess H M t0 nowMs := by
  cases hit : r.ingame_time with
  | none => simp [deriveLiveMinecraftClock, hit] at hres
  | some ts =>
  cases hsa : r.ingame_time_saved_at with
  | none => simp [deriveLiveMinecraftClock, hit, hsa] at hres
  | some sa =>
  by_cases hemp : ts = "" ∨ sa = ""
  · simp only [deriveLiveMinecraftClock, hit, hsa] at hres
    rw [if_pos hemp] at hres
    exact absurd hres (by simp)
  cases hpd : pd sa with
  | none =>
    simp only [deriveLiveMinecraftClock, hit, hsa, hpd] at hres
    rw [if_neg hemp] at hres
    exact absurd hres (by simp)
  | some t0 =>
  cases hsp0 : (jsSplit ts ':')[0]? with
  | none =>
    simp only [deriveLiveMinecraftClock, hit, hsa, hpd, hsp0] at hres
    rw [if_neg hemp] at hres
    exact absurd hres (by simp)
  | some hp =>
  cases hsp1 : (jsSplit ts ':')[1]? with
  | none =>
    simp only [deriveLiveMinecraftClock, hit, hsa, hpd, hsp0, hsp1] at hres
    rw [if_neg hemp] at hres
    exact absurd hres (by simp)
  | some mp =>
  by_cases hemp2 : hp = "" ∨ mp = ""
  · simp only [deriveLiveMinecraftClock, hit, hsa, hpd, hsp0, hsp1] at hres
    rw [if_neg hemp, if_pos hemp2] at hres
    exact absurd hres (by simp)
  cases hpi : jsParseInt hp with
  | none =>
    simp only [deriveLiveMinecraftClock, hit, hsa, hpd, hsp0, hsp1,
      hpi] at hres
    rw [if_neg hemp, if_neg hemp2] at hres
    exact absurd hres (by simp)
  | some H =>
  cases hpi2 : jsParseInt mp with
  | none =>
    simp only [deriveLiveMinecraftClock, hit, hsa, hpd, hsp0, hsp1, hpi,
      hpi2] at hres
    rw [if_neg hemp, if_neg hemp2] at hres
    exact absurd hres (by simp)
  | some M =>
  by_cases hrange : H < 0 ∨ H > 23 ∨ M < 0 ∨ M > 59
  · simp only [deriveLiveMinecraftClock, hit, hsa, hpd, hsp0, hsp1, hpi,
      hpi2] at hres
    rw [if_neg hemp, if_neg hemp2, if_pos hrange] at hres
    exact absurd hres (by simp)
  · simp only [deriveLiveMinecraftClock, hit, hsa, hpd, hsp0, hsp1, hpi,
      hpi2] at hres
    rw [if_neg hemp, if_neg hemp2, if_neg hrange, Option.some_inj] at hres
    push_neg at hemp hemp2
    refine ⟨ts, sa, hp, mp, H, M, t0, rfl, rfl, hemp.1, hemp.2, hpd, hsp0,
      hsp1, hemp2.1, hemp2.2, hpi, hpi2, by omega, by omega, by omega,
      by omega, ?_⟩
    rw [← hres]
    rfl

theorem deriveAtDate_inv {pd : String → Option ℤ} {r : SpawnTimerRow}
    {targetMs : ℤ} {res : MinecraftPhaseDetails}
    (hres : deriveMinecraftClockAtDate pd (some r) targetMs = some res) :
    ∃ (ts sa hp mp : String) (H M t0 : ℤ),
      r.ingame_time = some ts ∧ r.ingame_time_saved_at = some sa ∧
      ts ≠ "" ∧ sa ≠ "" ∧ pd sa = some t0 ∧
      (jsSplit ts ':')[0]? = some hp ∧ (jsSplit ts ':')[1]? = some mp ∧
      hp ≠ "" ∧ mp ≠ "" ∧
      jsParseInt hp = some H ∧ jsParseInt mp = some M ∧
      0 ≤ H ∧ H ≤ 23 ∧ 0 ≤ M ∧ M ≤ 59 ∧
      res = atDateSuccess H M t0 targetMs := by
  cases hit : r.ingame_time with
  | none => simp [deriveMinecraftClockAtDate, hit] at hres
  | some ts =>
  cases hsa : r.ingame_time_saved_at with
  | none => simp [deriveMinecraftClockAtDate, hit, hsa] at hres
  | some sa =>
  by_cases hemp : ts = "" ∨ sa = ""
  · simp only [deriveMinecraftClockAtDate, hit, hsa] at hres
    rw [if_pos hemp] at hres
    exact absurd hres (by simp)
  cases hpd : pd sa with
  | none =>
    simp only [deriveMinecraftClockAtDate, hit, hsa, hpd] at hres
    rw [if_neg hemp] at hres
    exact absurd hres (by simp)
  | some t0 =>
  cases hsp0 : (jsSplit ts ':')[0]? with
  | none =>
    simp only [deriveMinecraftClockAtDate, hit, hsa, hpd, hsp0] at hres
    rw [if_neg hemp] at hres
    exact absurd hres (by simp)
  | some hp =>
  cases hsp1 : (jsSplit ts ':')[1]? with
  | none =>
    simp only [deriveMinecraftClockAtDate, hit, hsa, hpd, hsp0, hsp1] at hres
    rw [if_neg hemp] at hres
    exact absurd hres (by simp)
  | some mp =>
  by_cases hemp2 : hp = "" ∨ mp = ""
  · simp only [deriveMinecraftClockAtDate, hit, hsa, hpd, hsp0, hsp1] at hres
    rw [if_neg hemp, if_pos hemp2] at hres
    exact absurd hres (by simp)
  cases hpi : jsParseInt hp with
  | none =>
    simp only [deriveMinecraftClockAtDate, hit, hsa, hpd, hsp0, hsp1,
      hpi] at hres
    rw [if_neg hemp, if_neg hemp2] at hres
    exact absurd hres (by simp)
  | some H =>
  cases hpi2 : jsParseInt mp with
  | none =>
    simp only [deriveMinecraftClockAtDate, hit, hsa, hpd, hsp0, hsp1, hpi,
      hpi2] at hres
    rw [if_neg hemp, if_neg hemp2] at hres
    exact absurd hres (by simp)
  | some M =>
  by_cases hrange : H < 0 ∨ H > 23 ∨ M < 0 ∨ M > 59
  · simp only [deriveMinecraftClockAtDate, hit, hsa, hpd, hsp0, hsp1, hpi,
      hpi2] at hres
    rw [if_neg hemp, if_neg hemp2, if_pos hrange] at hres
    exact absurd hres (by simp)
  · simp only [deriveMinecraftClockAtDate, hit, hsa, hpd, hsp0, hsp1, hpi,
      hpi2] at hres
    rw [if_neg hemp, if_neg hemp2, if_neg hrange, Option.some_inj] at hres
    push_neg at hemp hemp2
    refine ⟨ts, sa, hp, mp, H, M, t0, rfl, rfl, hemp.1, hemp.2, hpd, hsp0,
      hsp1, hemp2.1, hemp2.2, hpi, hpi2, by omega, by omega, by omega,
      by omega, ?_⟩
    rw [← hres]
    rfl

/-! ### Phase-table lemmas -/

theorem getMinecraftPhase_norm {m : ℚ} (h0 : 0 ≤ m) (h1 : m < 1440) :
    jsWrap m MINECRAFT_MINUTES_PER_DAY = m := by
  rw [MINECRAFT_MINUTES_PER_DAY_eq]
  exact jsWrap_eq_self (by norm_num) h0 h1

theorem getMinecraftPhase_phase_eq {m : ℚ} (h0 : 0 ≤ m) (h1 : m < 1440) :
    (getMinecraftPhaseFromMinutes m).phase =
      if 273 ≤ m ∧ m < 387 then "Aube"
      else if 387 ≤ m ∧ m < 1057 then "Jour"
      else if 1057 ≤ m ∧ m < 1188 then "Crépuscule"
      else "Nuit" := by
  simp only [getMinecraftPhaseFromMinutes, getMinecraftPhase_norm h0 h1]
  split_ifs <;> rfl

theorem getMinecraftPhase_add_int_mul (a : ℚ) (k : ℤ) :
    getMinecraftPhaseFromMinutes (a + k * 1440) =
      getMinecraftPhaseFromMinutes a := by
  simp only [getMinecraftPhaseFromMinutes, MINECRAFT_MINUTES_PER_DAY_eq]
  rw [jsWrap_add_int_mul (by norm_num) a k]

/-- C1: on every integer minute of `[0, 1440)` the phase lookup yields one of
the four phases, and each of the four phase intervals of the table —
Dawn `[273, 387)`, Day `[387, 1057)`, Dusk `[1057, 1188)`, Night
`[1188, 1440) ∪ [0, 273)` — characterizes its phase exactly, so the four
intervals partition `[0, 1440)` with no gaps and no overlaps. -/
theorem phase_partition_on_day (m : ℤ) (h0 : 0 ≤ m) (h1 : m < 1440) :
    ((getMinecraftPhaseFromMinutes (m : ℚ)).phase = "Aube" ∨
     (getMinecraftPhaseFromMinutes (m : ℚ)).phase = "Jour" ∨
     (getMinecraftPhaseFromMinutes (m : ℚ)).phase = "Crépuscule" ∨
     (getMinecraftPhaseFromMinutes (m : ℚ)).phase = "Nuit") ∧
    ((getMinecraftPhaseFromMinutes (m : ℚ)).phase = "Aube" ↔
      273 ≤ m ∧ m < 387) ∧
    ((getMinecraftPhaseFromMinutes (m : ℚ)).phase = "Jour" ↔
      387 ≤ m ∧ m < 1057) ∧
    ((getMinecraftPhaseFromMinutes (m : ℚ)).phase = "Crépuscule" ↔
      1057 ≤ m ∧ m < 1188) ∧
    ((getMinecraftPhaseFromMinutes (m : ℚ)).phase = "Nuit" ↔
      (1188 ≤ m ∧ m < 1440) ∨ (0 ≤ m ∧ m < 273)) := by
  have hq0 : (0 : ℚ) ≤ (m : ℚ) := by exact_mod_cast h0
  have hq1 : (m : ℚ) < 1440 := by exact_mod_cast h1
  rw [getMinecraftPhase_phase_eq hq0 hq1]
  have e1 : ((273 : ℚ) ≤ (m : ℚ) ∧ (m : ℚ) < 387) ↔
      ((273 : ℤ) ≤ m ∧ m < 387) := by exact_mod_cast Iff.rfl
  have e2 : ((387 : ℚ) ≤ (m : ℚ) ∧ (m : ℚ) < 1057) ↔
      ((387 : ℤ) ≤ m ∧ m < 1057) := by exact_mod_cast Iff.rfl
  have e3 : ((1057 : ℚ) ≤ (m : ℚ) ∧ (m : ℚ) < 1188) ↔
      ((1057 : ℤ) ≤ m ∧ m < 1188) := by exact_mod_cast Iff.rfl
  rw [if_congr e1 rfl rfl, if_congr e2 rfl rfl, if_congr e3 rfl rfl]
  split_ifs with g1 g2 g3
  · refine ⟨by simp, ?_, ?_, ?_, ?_⟩ <;> simp <;> omega
  · refine ⟨by simp, ?_, ?_, ?_, ?_⟩ <;> simp <;> omega
  · refine ⟨by simp, ?_, ?_, ?_, ?_⟩ <;> simp <;> omega
  · refine ⟨by simp, ?_, ?_, ?_, ?_⟩ <;> simp <;> omega

/-- C1 witness at the concrete minute 300. -/
theorem phase_partition_on_day_witness :
    ((getMinecraftPhaseFromMinutes ((300 : ℤ) : ℚ)).phase = "Aube" ∨
     (getMinecraftPhaseFromMinutes ((300 : ℤ) : ℚ)).phase = "Jour" ∨
     (getMinecraftPhaseFromMinutes ((300 : ℤ) : ℚ)).phase = "Crépuscule" ∨
     (getMinecraftPhaseFromMinutes ((300 : ℤ) : ℚ)).phase = "Nuit") ∧
    ((getMinecraftPhaseFromMinutes ((300 : ℤ) : ℚ)).phase = "Aube" ↔
      273 ≤ (300 : ℤ) ∧ (300 : ℤ) < 387) ∧
    ((getMinecraftPhaseFromMinutes ((300 : ℤ) : ℚ)).phase = "Jour" ↔
      387 ≤ (300 : ℤ) ∧ (300 : ℤ) < 1057) ∧
    ((getMinecraftPhaseFromMinutes ((300 : ℤ) : ℚ)).phase = "Crépuscule" ↔
      1057 ≤ (300 : ℤ) ∧ (300 : ℤ) < 1188) ∧
    ((getMinecraftPhaseFromMinutes ((300 : ℤ) : ℚ)).phase = "Nuit" ↔
      (1188 ≤ (300 : ℤ) ∧ (300 : ℤ) < 1440) ∨
        (0 ≤ (300 : ℤ) ∧ (300 : ℤ) < 273)) :=
  phase_partition_on_day 300 (by decide) (by decide)

/-- C5: the argument of the phase lookup is reduced with a true (mathematical)
modulo into `[0, 1440)`, so any two integer arguments congruent modulo 1440
give the same result; in particular `-10` wraps to `1430` and both fall in the
Night interval. -/
theorem phase_wraps_negative_minutes :
    (∀ n : ℤ, getMinecraftPhaseFromMinutes (n : ℚ) =
      getMinecraftPhaseFromMinutes ((n % 1440 : ℤ) : ℚ)) ∧
    getMinecraftPhaseFromMinutes (-10) = getMinecraftPhaseFromMinutes 1430 ∧
    (getMinecraftPhaseFromMinutes (-10)).phase = "Nuit" := by
  have key : ∀ n : ℤ, getMinecraftPhaseFromMinutes (n : ℚ) =
      getMinecraftPhaseFromMinutes ((n % 1440 : ℤ) : ℚ) := by
    intro n
    have hsplit : (n : ℚ) = ((n % 1440 : ℤ) : ℚ) + (n / 1440 : ℤ) * 1440 := by
      have h := Int.emod_add_ediv n 1440
      have h2 : ((n % 1440 + 1440 * (n / 1440) : ℤ) : ℚ) = (n : ℚ) := by
        exact_mod_cast congrArg (fun z : ℤ => (z : ℚ)) h
      push_cast at h2
      linarith [h2]
    rw [hsplit, getMinecraftPhase_add_int_mul]
  have hm10 : getMinecraftPhaseFromMinutes (-10) =
      getMinecraftPhaseFromMinutes 1430 := by
    have h := key (-10)
    have hmod : ((-10 : ℤ) % 1440) = 1430 := by decide
    rw [hmod] at h
    have hc1 : (((-10 : ℤ)) : ℚ) = -10 := by norm_num
    have hc2 : (((1430 : ℤ)) : ℚ) = 1430 := by norm_num
    rw [hc1, hc2] at h
    exact h
  refine ⟨key, hm10, ?_⟩
  rw [hm10, getMinecraftPhase_phase_eq (by norm_num) (by norm_num)]
  norm_num

theorem getMinecraftPhase_eq_of_mem {m : ℚ} (h0 : 0 ≤ m) (h1 : m < 1440) :
    getMinecraftPhaseFromMinutes m =
      ⟨if 273 ≤ m ∧ m < 387 then "Aube"
        else if 387 ≤ m ∧ m < 1057 then "Jour"
        else if 1057 ≤ m ∧ m < 1188 then "Crépuscule"
        else "Nuit",
       some (formatTwoDigits ⌊m / 60⌋ ++ ":" ++
         formatTwoDigits ⌊jsRem m 60⌋)⟩ := by
  simp only [getMinecraftPhaseFromMinutes, getMinecraftPhase_norm h0 h1]
  split_ifs <;> rfl

theorem normalizeMinecraftSeconds_nonneg (s : ℚ) :
    0 ≤ normalizeMinecraftSeconds s := by
  unfold normalizeMinecraftSeconds
  rw [MINECRAFT_SECONDS_PER_DAY_eq]
  exact jsWrap_nonneg (by norm_num) s

theorem normalizeMinecraftSeconds_lt (s : ℚ) :
    normalizeMinecraftSeconds s < 86400 := by
  unfold normalizeMinecraftSeconds
  rw [MINECRAFT_SECONDS_PER_DAY_eq]
  exact jsWrap_lt (by norm_num) s

theorem normalizeMinecraftSeconds_eq_trueMod (s : ℚ) :
    normalizeMinecraftSeconds s = trueMod s 86400 := by
  unfold normalizeMinecraftSeconds
  rw [MINECRAFT_SECONDS_PER_DAY_eq]
  exact jsWrap_eq_trueMod (by norm_num) s

theorem normalizeMinecraftSeconds_eq_self {s : ℚ} (h0 : 0 ≤ s)
    (h1 : s < 86400) : normalizeMinecraftSeconds s = s := by
  unfold normalizeMinecraftSeconds
  rw [MINECRAFT_SECONDS_PER_DAY_eq]
  exact jsWrap_eq_self (by norm_num) h0 h1

theorem tmod_small {v : ℤ} (h0 : 0 ≤ v) (h1 : v < 24) :
    Int.tmod v 24 = v := by
  rw [Int.tmod_eq_emod h0 (by norm_num)]
  exact Int.emod_eq_of_lt h0 h1

theorem formatTwoDigits_length {v : ℤ} (h0 : 0 ≤ v) (h1 : v < 60) :
    (formatTwoDigits v).length = 2 := by
  interval_cases v <;> rfl

theorem MINECRAFT_HOUR_SECONDS_eq : MINECRAFT_HOUR_SECONDS = 50 := rfl

theorem atDateSuccess_eq_live_phase (H M t0 n : ℤ) :
    atDateSuccess H M t0 n = (liveSuccess H M t0 n).phaseDetails := by
  simp only [atDateSuccess, liveSuccess, getPhasePreviewFromMinutes,
    MINECRAFT_SECONDS_PER_REAL_SECOND_eq, MINECRAFT_HOUR_SECONDS_eq]
  set e : ℚ := max 0 (((n - t0 : ℤ) : ℚ) / 1000) with he
  set T : ℚ := (((H * 60 + M) * 60 : ℤ) : ℚ) + e * 72 with hT
  set k : ℤ := ⌊T / 86400⌋ with hk
  have hw : normalizeMinecraftSeconds T = T - 86400 * k := by
    rw [normalizeMinecraftSeconds_eq_trueMod]
    rfl
  rw [hw]
  have harg : (T - 86400 * (k : ℚ)) / 60 =
      (((H * 60 + M : ℤ) : ℚ) + e * (60 / 50)) + ((-k : ℤ) : ℚ) * 1440 := by
    rw [hT]
    push_cast
    ring
  rw [harg, getMinecraftPhase_add_int_mul]

theorem label_eq_clock_core {nq : ℚ} (h0 : 0 ≤ nq) (h1 : nq < 86400) :
    (getMinecraftPhaseFromMinutes (nq / 60)).timeLabel =
      some (formatTwoDigits (Int.tmod ⌊nq / 3600⌋ 24) ++ ":" ++
        formatTwoDigits ⌊jsRem nq 3600 / 60⌋) := by
  have hm0 : 0 ≤ nq / 60 := by positivity
  have hm1 : nq / 60 < 1440 := by
    rw [div_lt_iff₀ (by norm_num : (0 : ℚ) < 60)]
    linarith
  rw [getMinecraftPhase_eq_of_mem hm0 hm1]
  have hdivdiv : nq / 60 / 60 = nq / 3600 := by
    rw [div_div]
    norm_num
  have hfloor : ⌊nq / 3600⌋ = Int.tmod ⌊nq / 3600⌋ 24 := by
    rw [tmod_small]
    · exact Int.floor_nonneg.mpr (by positivity)
    · rw [Int.floor_lt]
      rw [div_lt_iff₀ (by norm_num : (0 : ℚ) < 3600)]
      push_cast
      linarith
  have hrem : jsRem (nq / 60) 60 = jsRem nq 3600 / 60 := by
    rw [jsRem_eq_trueMod hm0 (by norm_num),
      jsRem_eq_trueMod h0 (by norm_num : (0 : ℚ) < 3600)]
    unfold trueMod
    rw [hdivdiv]
    ring
  rw [hdivdiv, hrem, ← hfloor]

theorem liveSuccess_label (H M t0 n : ℤ) :
    (liveSuccess H M t0 n).phaseDetails.timeLabel =
      some ((liveSuccess H M t0 n).clock) := by
  simp only [liveSuccess, getPhasePreviewFromMinutes]
  exact label_eq_clock_core (normalizeMinecraftSeconds_nonneg _)
    (normalizeMinecraftSeconds_lt _)

/-- C2: for every reference row (absent or malformed included) and every
instant, the phase-at-instant operation returns exactly the phase component of
the live-clock operation evaluated at the same instant; in particular the two
are `none` together. -/
theorem predicted_phase_matches_live (pd : String → Option ℤ)
    (row : Option SpawnTimerRow) (X : ℤ) :
    deriveMinecraftClockAtDate pd row X =
      (deriveLiveMinecraftClock pd row X).map
        (fun res => res.phaseDetails) := by
  cases row with
  | none => rfl
  | some r =>
    cases hlive : deriveLiveMinecraftClock pd (some r) X with
    | some res =>
      obtain ⟨ts, sa, hp, mp, H, M, t0, h1, h2, h3, h4, h5, h6, h7, h8, h9,
        h10, h11, h12, h13, h14, h15, hres⟩ := deriveLive_inv hlive
      rw [deriveAtDate_of_valid pd r X t0 ts sa hp mp H M h1 h2 h3 h4 h5 h6
        h7 h8 h9 h10 h11 h12 h13 h14 h15]
      rw [Option.map_some', hres, atDateSuccess_eq_live_phase]
    | none =>
      cases hat : deriveMinecraftClockAtDate pd (some r) X with
      | none => rfl
      | some res2 =>
        exfalso
        obtain ⟨ts, sa, hp, mp, H, M, t0, h1, h2, h3, h4, h5, h6, h7, h8, h9,
          h10, h11, h12, h13, h14, h15, _⟩ := deriveAtDate_inv hat
        have hsome := deriveLive_of_valid pd r X t0 ts sa hp mp H M h1 h2 h3
          h4 h5 h6 h7 h8 h9 h10 h11 h12 h13 h14 h15
        rw [hsome] at hlive
        exact Option.noConfusion hlive

/-- C9: whenever the live-clock operation returns a result, the clock string
equals the (sub-minute-precision) time label carried by the returned phase
details: the HH:MM rendering from normalized seconds and the one from
normalized minutes agree. -/
theorem clock_equals_phase_time_label (pd : String → Option ℤ)
    (row : Option SpawnTimerRow) (n : ℤ) (res : LiveClockResult)
    (hres : deriveLiveMinecraftClock pd row n = some res) :
    res.phaseDetails.timeLabel = some res.clock := by
  cases row with
  | none => exact Option.noConfusion hres
  | some r =>
    obtain ⟨ts, sa, hp, mp, H, M, t0, h1, h2, h3, h4, h5, h6, h7, h8, h9,
      h10, h11, h12, h13, h14, h15, heq⟩ := deriveLive_inv hres
    rw [heq]
    exact liveSuccess_label H M t0 n

theorem liveSuccess_concrete :
    liveSuccess 6 0 1704067200000 1704067227000 =
      ⟨"06:32", ⟨"Jour", some "06:32"⟩⟩ := by
  have htot : (((6 * 60 + 0) * 60 : ℤ) : ℚ) +
      max 0 (((1704067227000 - 1704067200000 : ℤ) : ℚ) / 1000) * 72 =
        23544 := by
    norm_num
  simp only [liveSuccess, MINECRAFT_SECONDS_PER_REAL_SECOND_eq, htot]
  have hnorm : normalizeMinecraftSeconds 23544 = 23544 :=
    normalizeMinecraftSeconds_eq_self (by norm_num) (by norm_num)
  rw [hnorm]
  have hf1 : ⌊(23544 : ℚ) / 3600⌋ = 6 := floor_eval (by norm_num) (by norm_num)
  have hrem : jsRem (23544 : ℚ) 3600 = 1944 := by
    rw [jsRem_eq_trueMod (by norm_num) (by norm_num)]
    unfold trueMod
    rw [hf1]
    norm_num
  have hf2 : ⌊(1944 : ℚ) / 60⌋ = 32 := floor_eval (by norm_num) (by norm_num)
  rw [hf1, hrem, hf2]
  have htm : Int.tmod 6 24 = 6 := by decide
  rw [htm]
  have hphase : getPhasePreviewFromMinutes ((23544 : ℚ) / 60) =
      ⟨"Jour", some "06:32"⟩ := by
    unfold getPhasePreviewFromMinutes
    rw [getMinecraftPhase_eq_of_mem (by norm_num) (by norm_num)]
    rw [if_neg (by norm_num), if_pos (by norm_num)]
    have hd : (23544 : ℚ) / 60 / 60 = 23544 / 3600 := by
      rw [div_div]
      norm_num
    have hr2 : jsRem ((23544 : ℚ) / 60) 60 = 162 / 5 := by
      rw [jsRem_eq_trueMod (by norm_num) (by norm_num)]
      unfold trueMod
      rw [hd, hf1]
      norm_num
    rw [hd, hf1, hr2]
    have hf3 : ⌊(162 : ℚ) / 5⌋ = 32 := floor_eval (by norm_num) (by norm_num)
    rw [hf3]
    rfl
  rw [hphase]
  rfl

theorem live_concrete :
    deriveLiveMinecraftClock parseDateJan2024 (some rowJan2024)
      1704067227000 = some resJan2024 := by
  have h := deriveLive_of_valid parseDateJan2024 rowJan2024 1704067227000
    1704067200000 "06:00" "2024-01-01T00:00:00Z" "06" "00" 6 0 rfl rfl
    (by decide) (by decide) (by decide) (by decide) (by decide) (by decide)
    (by decide) (by decide) (by decide) (by decide) (by decide) (by decide)
    (by decide)
  rw [h, liveSuccess_concrete]
  rfl

/-- C9 witness: the specification's concrete scenario, where the clock and
the phase label are both "06:32". -/
theorem clock_equals_phase_time_label_witness :
    resJan2024.phaseDetails.timeLabel = some resJan2024.clock :=
  clock_equals_phase_time_label parseDateJan2024 (some rowJan2024)
    1704067227000 resJan2024 live_concrete

/-- C3: for the reference time-of-day "06:00" observed at
2024-01-01T00:00:00Z, the live clock queried 27 real seconds later returns
phase Day ("Jour") and the clock string "06:32" (27 × 72 = 1944 simulated
seconds past 360 simulated minutes is 392.4 simulated minutes, in the Day
interval [387, 1057), truncated to whole minutes). -/
theorem concrete_scenario_0632_day :
    deriveLiveMinecraftClock parseDateJan2024 (some rowJan2024)
      1704067227000 = some ⟨"06:32", ⟨"Jour", some "06:32"⟩⟩ :=
  live_concrete

/-- C7: the dilation ratio is 72 simulated seconds per real second, and a
reference of "00:00" observed at instant t0 queried exactly 50 real seconds
(50000 ms) later yields the simulated clock "01:00": one simulated hour per
50 real seconds. -/
theorem one_simulated_hour_per_50_real_seconds (pd : String → Option ℤ)
    (i tx nx : Option String) (sa : String) (t0 : ℤ)
    (h4 : sa ≠ "") (h5 : pd sa = some t0) :
    MINECRAFT_SECONDS_PER_REAL_SECOND = 72 ∧
    deriveLiveMinecraftClock pd (some ⟨i, tx, nx, some "00:00", some sa⟩)
        (t0 + 50000) =
      some ⟨"01:00", getMinecraftPhaseFromMinutes 60⟩ := by
  refine ⟨MINECRAFT_SECONDS_PER_REAL_SECOND_eq, ?_⟩
  have h := deriveLive_of_valid pd ⟨i, tx, nx, some "00:00", some sa⟩
    (t0 + 50000) t0 "00:00" sa "00" "00" 0 0 rfl rfl (by decide) h4 h5
    (by decide) (by decide) (by decide) (by decide) (by decide) (by decide)
    (by decide) (by decide) (by decide) (by decide)
  rw [h]
  congr 1
  have htot : (((0 * 60 + 0) * 60 : ℤ) : ℚ) +
      max 0 (((t0 + 50000 - t0 : ℤ) : ℚ) / 1000) * 72 = 3600 := by
    have ht : t0 + 50000 - t0 = (50000 : ℤ) := by omega
    rw [ht]
    norm_num
  simp only [liveSuccess, MINECRAFT_SECONDS_PER_REAL_SECOND_eq, htot]
  have hnorm : normalizeMinecraftSeconds 3600 = 3600 :=
    normalizeMinecraftSeconds_eq_self (by norm_num) (by norm_num)
  rw [hnorm]
  have hf1 : ⌊(3600 : ℚ) / 3600⌋ = 1 := floor_eval (by norm_num) (by norm_num)
  have hrem : jsRem (3600 : ℚ) 3600 = 0 := by
    rw [jsRem_eq_trueMod (by norm_num) (by norm_num)]
    unfold trueMod
    rw [hf1]
    norm_num
  rw [hf1, hrem]
  have hz : (0 : ℚ) / 60 = 0 := by norm_num
  rw [hz, Int.floor_zero]
  have htm : Int.tmod 1 24 = 1 := by decide
  rw [htm]
  have h60 : (3600 : ℚ) / 60 = 60 := by norm_num
  rw [h60]
  rfl

/-- C7 witness at the concrete instant 2024-01-01T00:00:00Z. -/
theorem one_simulated_hour_per_50_real_seconds_witness :
    MINECRAFT_SECONDS_PER_REAL_SECOND = 72 ∧
    deriveLiveMinecraftClock parseDateJan2024
        (some ⟨none, none, none, some "00:00",
          some "2024-01-01T00:00:00Z"⟩)
        (1704067200000 + 50000) =
      some ⟨"01:00", getMinecraftPhaseFromMinutes 60⟩ :=
  one_simulated_hour_per_50_real_seconds parseDateJan2024 none none none
    "2024-01-01T00:00:00Z" 1704067200000 (by decide) (by decide)

theorem elapsed_clamped_to_zero {n t0 : ℤ} (hn : n ≤ t0) :
    max (0 : ℚ) (((n - t0 : ℤ) : ℚ) / 1000) = 0 := by
  have h1 : ((n - t0 : ℤ) : ℚ) ≤ 0 := by
    exact_mod_cast (by omega : (n - t0 : ℤ) ≤ 0)
  have h2 : ((n - t0 : ℤ) : ℚ) / 1000 ≤ 0 := by linarith
  exact max_eq_left h2

theorem liveSuccess_at_reference {H M t0 n : ℤ} (h12 : 0 ≤ H) (h13 : H ≤ 23)
    (h14 : 0 ≤ M) (h15 : M ≤ 59) (hn : n ≤ t0) :
    liveSuccess H M t0 n =
      ⟨formatTwoDigits H ++ ":" ++ formatTwoDigits M,
       getMinecraftPhaseFromMinutes ((H * 60 + M : ℤ) : ℚ)⟩ := by
  simp only [liveSuccess, elapsed_clamped_to_zero hn]
  have htot : (((H * 60 + M) * 60 : ℤ) : ℚ) +
      0 * MINECRAFT_SECONDS_PER_REAL_SECOND =
        (((H * 60 + M) * 60 : ℤ) : ℚ) := by
    ring
  rw [htot]
  have hb0 : (0 : ℚ) ≤ (((H * 60 + M) * 60 : ℤ) : ℚ) := by
    exact_mod_cast (by omega : (0 : ℤ) ≤ (H * 60 + M) * 60)
  have hb1 : (((H * 60 + M) * 60 : ℤ) : ℚ) < 86400 := by
    exact_mod_cast (by omega : ((H * 60 + M) * 60 : ℤ) < 86400)
  rw [normalizeMinecraftSeconds_eq_self hb0 hb1]
  have hdiv : (((H * 60 + M) * 60 : ℤ) : ℚ) / 3600 = (H : ℚ) + (M : ℚ) / 60 := by
    push_cast
    ring
  have hM0 : ⌊(M : ℚ) / 60⌋ = 0 := by
    rw [Int.floor_eq_zero_iff, Set.mem_Ico]
    constructor
    · exact div_nonneg (by exact_mod_cast h14) (by norm_num)
    · rw [div_lt_one (by norm_num : (0 : ℚ) < 60)]
      exact_mod_cast (by omega : M < 60)
  have hfl : ⌊(((H * 60 + M) * 60 : ℤ) : ℚ) / 3600⌋ = H := by
    rw [hdiv, Int.floor_int_add, hM0, add_zero]
  rw [hfl, tmod_small h12 (by omega)]
  have hr : jsRem (((H * 60 + M) * 60 : ℤ) : ℚ) 3600 = (M : ℚ) * 60 := by
    rw [jsRem_eq_trueMod hb0 (by norm_num : (0 : ℚ) < 3600)]
    unfold trueMod
    rw [hfl]
    push_cast
    ring
  rw [hr]
  have hm : (M : ℚ) * 60 / 60 = (M : ℚ) := by
    field_simp
  rw [hm, Int.floor_intCast]
  have hp : (((H * 60 + M) * 60 : ℤ) : ℚ) / 60 = ((H * 60 + M : ℤ) : ℚ) := by
    push_cast
    ring
  rw [hp]
  rfl

theorem atDateSuccess_at_reference {H M t0 n : ℤ} (hn : n ≤ t0) :
    atDateSuccess H M t0 n =
      getMinecraftPhaseFromMinutes ((H * 60 + M : ℤ) : ℚ) := by
  simp only [atDateSuccess, elapsed_clamped_to_zero hn]
  have h : ((H * 60 + M : ℤ) : ℚ) + 0 * (60 / MINECRAFT_HOUR_SECONDS) =
      ((H * 60 + M : ℤ) : ℚ) := by
    ring
  rw [h]

/-- C4: for a valid reference observed at instant t0, querying either
derivation operation at any instant n ≤ t0 clamps the elapsed time to zero
and returns the reference time-of-day unchanged: the clock string re-renders
the parsed reference hour and minute, and the phase is the one the reference
minute falls in.  An earlier query is not an error (the result is non-null)
and never runs the clock backward. -/
theorem query_before_observation_is_reference (pd : String → Option ℤ)
    (r : SpawnTimerRow) (n t0 : ℤ) (ts sa hp mp : String) (H M : ℤ)
    (h1 : r.ingame_time = some ts) (h2 : r.ingame_time_saved_at = some sa)
    (h3 : ts ≠ "") (h4 : sa ≠ "") (h5 : pd sa = some t0)
    (h6 : (jsSplit ts ':')[0]? = some hp)
    (h7 : (jsSplit ts ':')[1]? = some mp)
    (h8 : hp ≠ "") (h9 : mp ≠ "")
    (h10 : jsParseInt hp = some H) (h11 : jsParseInt mp = some M)
    (h12 : 0 ≤ H) (h13 : H ≤ 23) (h14 : 0 ≤ M) (h15 : M ≤ 59)
    (hn : n ≤ t0) :
    deriveLiveMinecraftClock pd (some r) n =
      some ⟨formatTwoDigits H ++ ":" ++ formatTwoDigits M,
        getMinecraftPhaseFromMinutes ((H * 60 + M : ℤ) : ℚ)⟩ ∧
    deriveMinecraftClockAtDate pd (some r) n =
      some (getMinecraftPhaseFromMinutes ((H * 60 + M : ℤ) : ℚ)) := by
  constructor
  · rw [deriveLive_of_valid pd r n t0 ts sa hp mp H M h1 h2 h3 h4 h5 h6 h7
      h8 h9 h10 h11 h12 h13 h14 h15,
      liveSuccess_at_reference h12 h13 h14 h15 hn]
  · rw [deriveAtDate_of_valid pd r n t0 ts sa hp mp H M h1 h2 h3 h4 h5 h6 h7
      h8 h9 h10 h11 h12 h13 h14 h15,
      atDateSuccess_at_reference hn]

/-- C4 witness: the concrete reference of the scenario queried 100 seconds
before its observation instant. -/
theorem query_before_observation_is_reference_witness :
    deriveLiveMinecraftClock parseDateJan2024 (some rowJan2024)
        1704067100000 =
      some ⟨formatTwoDigits 6 ++ ":" ++ formatTwoDigits 0,
        getMinecraftPhaseFromMinutes ((6 * 60 + 0 : ℤ) : ℚ)⟩ ∧
    deriveMinecraftClockAtDate parseDateJan2024 (some rowJan2024)
        1704067100000 =
      some (getMinecraftPhaseFromMinutes ((6 * 60 + 0 : ℤ) : ℚ)) :=
  query_before_observation_is_reference parseDateJan2024 rowJan2024
    1704067100000 1704067200000 "06:00" "2024-01-01T00:00:00Z" "06" "00" 6 0
    rfl rfl (by decide) (by decide) (by decide) (by decide) (by decide)
    (by decide) (by decide) (by decide) (by decide) (by decide) (by decide)
    (by decide) (by decide) (by decide)

theorem liveSuccess_clock_shape (H M t0 n : ℤ) :
    ∃ (h m : ℤ) (q : ℚ), 0 ≤ h ∧ h < 24 ∧ 0 ≤ m ∧ m < 60 ∧
      0 ≤ q ∧ q < 86400 ∧
      (liveSuccess H M t0 n).phaseDetails =
        getMinecraftPhaseFromMinutes (q / 60) ∧
      h = ⌊q / 3600⌋ ∧ m = ⌊jsRem q 3600 / 60⌋ ∧
      (h : ℚ) * 3600 + (m : ℚ) * 60 ≤ q ∧
      q < (h : ℚ) * 3600 + ((m : ℚ) + 1) * 60 ∧
      (liveSuccess H M t0 n).clock =
        formatTwoDigits h ++ ":" ++ formatTwoDigits m ∧
      ((liveSuccess H M t0 n).clock).length = 5 := by
  simp only [liveSuccess]
  set T : ℚ := (((H * 60 + M) * 60 : ℤ) : ℚ) +
    max 0 (((n - t0 : ℤ) : ℚ) / 1000) * MINECRAFT_SECONDS_PER_REAL_SECOND
    with hT
  set q : ℚ := normalizeMinecraftSeconds T with hq
  have h0 : 0 ≤ q := normalizeMinecraftSeconds_nonneg T
  have h1 : q < 86400 := normalizeMinecraftSeconds_lt T
  have hh0 : 0 ≤ ⌊q / 3600⌋ :=
    Int.floor_nonneg.mpr (by positivity)
  have hh1 : ⌊q / 3600⌋ < 24 := by
    rw [Int.floor_lt]
    rw [div_lt_iff₀ (by norm_num : (0 : ℚ) < 3600)]
    push_cast
    linarith
  have hr_eq : jsRem q 3600 = q - 3600 * (⌊q / 3600⌋ : ℚ) := by
    rw [jsRem_eq_trueMod h0 (by norm_num : (0 : ℚ) < 3600)]
    rfl
  have hrem0 : 0 ≤ jsRem q 3600 := by
    rw [jsRem_eq_trueMod h0 (by norm_num : (0 : ℚ) < 3600)]
    exact trueMod_nonneg (by norm_num) _
  have hrem1 : jsRem q 3600 < 3600 := by
    rw [jsRem_eq_trueMod h0 (by norm_num : (0 : ℚ) < 3600)]
    exact trueMod_lt (by norm_num) _
  have hm0 : 0 ≤ ⌊jsRem q 3600 / 60⌋ :=
    Int.floor_nonneg.mpr (by positivity)
  have hm1 : ⌊jsRem q 3600 / 60⌋ < 60 := by
    rw [Int.floor_lt]
    rw [div_lt_iff₀ (by norm_num : (0 : ℚ) < 60)]
    push_cast
    linarith
  have htm : Int.tmod ⌊q / 3600⌋ 24 = ⌊q / 3600⌋ := tmod_small hh0 hh1
  have hfm_le : (⌊jsRem q 3600 / 60⌋ : ℚ) ≤ jsRem q 3600 / 60 :=
    Int.floor_le _
  have hfm_lt : jsRem q 3600 / 60 < (⌊jsRem q 3600 / 60⌋ : ℚ) + 1 :=
    Int.lt_floor_add_one _
  refine ⟨Int.tmod ⌊q / 3600⌋ 24, ⌊jsRem q 3600 / 60⌋, q,
    ?_, ?_, hm0, hm1, h0, h1, rfl, htm, rfl, ?_, ?_, rfl, ?_⟩
  · rw [htm]
    exact hh0
  · rw [htm]
    exact hh1
  · rw [htm]
    have hle : (⌊jsRem q 3600 / 60⌋ : ℚ) * 60 ≤ jsRem q 3600 := by
      linarith
    have hfloor_le : (⌊q / 3600⌋ : ℚ) ≤ q / 3600 := Int.floor_le _
    linarith [hr_eq ▸ hle]
  · rw [htm]
    have hlt : jsRem q 3600 < ((⌊jsRem q 3600 / 60⌋ : ℚ) + 1) * 60 := by
      linarith
    linarith [hr_eq ▸ hlt]
  · have hlen1 : (formatTwoDigits (Int.tmod ⌊q / 3600⌋ 24)).length = 2 := by
      rw [htm]
      exact formatTwoDigits_length hh0 (by omega)
    have hlen2 : (formatTwoDigits ⌊jsRem q 3600 / 60⌋).length = 2 :=
      formatTwoDigits_length hm0 hm1
    simp [String.length_append, hlen1, hlen2]
    rfl

/-- C8: the live-clock operation normalizes the total simulated seconds into
`[0, 86400)` by modulo arithmetic which, on every non-negative input, is the
mathematical modulo; and every non-null result carries a zero-padded HH:MM
clock string (two digits, a colon, two digits — five characters) whose hours
lie in `[0, 23]` and minutes in `[0, 59]`, both being truncations (not
roundings) of the normalized simulated-seconds value `q` of the invocation
(the one the returned phase details are computed from):
`h = ⌊q / 3600⌋`, `m = ⌊(q mod 3600) / 60⌋`, hence
`h·3600 + m·60 ≤ q < h·3600 + (m+1)·60`. -/
theorem clock_normalization_and_format :
    (∀ s : ℚ, 0 ≤ s →
      normalizeMinecraftSeconds s = trueMod s 86400 ∧
      0 ≤ normalizeMinecraftSeconds s ∧
      normalizeMinecraftSeconds s < 86400) ∧
    (∀ (pd : String → Option ℤ) (row : Option SpawnTimerRow) (n : ℤ)
      (res : LiveClockResult),
      deriveLiveMinecraftClock pd row n = some res →
      ∃ (h m : ℤ) (q : ℚ), 0 ≤ h ∧ h < 24 ∧ 0 ≤ m ∧ m < 60 ∧
        0 ≤ q ∧ q < 86400 ∧
        res.phaseDetails = getMinecraftPhaseFromMinutes (q / 60) ∧
        h = ⌊q / 3600⌋ ∧ m = ⌊jsRem q 3600 / 60⌋ ∧
        (h : ℚ) * 3600 + (m : ℚ) * 60 ≤ q ∧
        q < (h : ℚ) * 3600 + ((m : ℚ) + 1) * 60 ∧
        res.clock = formatTwoDigits h ++ ":" ++ formatTwoDigits m ∧
        res.clock.length = 5) := by
  constructor
  · intro s _
    exact ⟨normalizeMinecraftSeconds_eq_trueMod s,
      normalizeMinecraftSeconds_nonneg s, normalizeMinecraftSeconds_lt s⟩
  · intro pd row n res hres
    cases row with
    | none => exact Option.noConfusion hres
    | some r =>
      obtain ⟨ts, sa, hp, mp, H, M, t0, _, _, _, _, _, _, _, _, _, _, _, _,
        _, _, _, heq⟩ := deriveLive_inv hres
      rw [heq]
      exact liveSuccess_clock_shape H M t0 n

/-- C8 witness: both parts at concrete inputs (seconds 100000, and the
concrete scenario row). -/
theorem clock_normalization_and_format_witness :
    (normalizeMinecraftSeconds 100000 = trueMod 100000 86400 ∧
      0 ≤ normalizeMinecraftSeconds 100000 ∧
      normalizeMinecraftSeconds 100000 < 86400) ∧
    (∃ (h m : ℤ) (q : ℚ), 0 ≤ h ∧ h < 24 ∧ 0 ≤ m ∧ m < 60 ∧
      0 ≤ q ∧ q < 86400 ∧
      resJan2024.phaseDetails = getMinecraftPhaseFromMinutes (q / 60) ∧
      h = ⌊q / 3600⌋ ∧ m = ⌊jsRem q 3600 / 60⌋ ∧
      (h : ℚ) * 3600 + (m : ℚ) * 60 ≤ q ∧
      q < (h : ℚ) * 3600 + ((m : ℚ) + 1) * 60 ∧
      resJan2024.clock = formatTwoDigits h ++ ":" ++ formatTwoDigits m ∧
      resJan2024.clock.length = 5) :=
  ⟨clock_normalization_and_format.1 100000 (by norm_num),
   clock_normalization_and_format.2 parseDateJan2024 (some rowJan2024)
     1704067227000 resJan2024 live_concrete⟩

/-- C6: both derivation operations return null — and never a fault, being
total functions — when the reference is absent, when the parsed hour is 24,
when the parsed minute is 60, or when the observation timestamp does not
parse to a valid instant. -/
theorem derive_null_on_bad_input :
    (∀ (pd : String → Option ℤ) (n : ℤ),
      deriveLiveMinecraftClock pd none n = none ∧
      deriveMinecraftClockAtDate pd none n = none) ∧
    (∀ (pd : String → Option ℤ) (r : SpawnTimerRow) (n : ℤ) (ts hp : String),
      r.ingame_time = some ts → (jsSplit ts ':')[0]? = some hp →
      jsParseInt hp = some 24 →
      deriveLiveMinecraftClock pd (some r) n = none ∧
      deriveMinecraftClockAtDate pd (some r) n = none) ∧
    (∀ (pd : String → Option ℤ) (r : SpawnTimerRow) (n : ℤ) (ts mp : String),
      r.ingame_time = some ts → (jsSplit ts ':')[1]? = some mp →
      jsParseInt mp = some 60 →
      deriveLiveMinecraftClock pd (some r) n = none ∧
      deriveMinecraftClockAtDate pd (some r) n = none) ∧
    (∀ (pd : String → Option ℤ) (r : SpawnTimerRow) (n : ℤ) (sa : String),
      r.ingame_time_saved_at = some sa → pd sa = none →
      deriveLiveMinecraftClock pd (some r) n = none ∧
      deriveMinecraftClockAtDate pd (some r) n = none) := by
  refine ⟨fun pd n => ⟨rfl, rfl⟩, ?_, ?_, ?_⟩
  · intro pd r n ts hp h1 h6 hpi
    constructor
    · cases hres : deriveLiveMinecraftClock pd (some r) n with
      | none => rfl
      | some res =>
        exfalso
        obtain ⟨ts', sa', hp', mp', H, M, t0, k1, k2, k3, k4, k5, k6, k7,
          k8, k9, k10, k11, k12, k13, k14, k15, _⟩ := deriveLive_inv hres
        injection h1.symm.trans k1 with e1
        subst e1
        injection h6.symm.trans k6 with e2
        subst e2
        injection hpi.symm.trans k10 with e3
        omega
    · cases hres : deriveMinecraftClockAtDate pd (some r) n with
      | none => rfl
      | some res =>
        exfalso
        obtain ⟨ts', sa', hp', mp', H, M, t0, k1, k2, k3, k4, k5, k6, k7,
          k8, k9, k10, k11, k12, k13, k14, k15, _⟩ := deriveAtDate_inv hres
        injection h1.symm.trans k1 with e1
        subst e1
        injection h6.symm.trans k6 with e2
        subst e2
        injection hpi.symm.trans k10 with e3
        omega
  · intro pd r n ts mp h1 h7 hpi
    constructor
    · cases hres : deriveLiveMinecraftClock pd (some r) n with
      | none => rfl
      | some res =>
        exfalso
        obtain ⟨ts', sa', hp', mp', H, M, t0, k1, k2, k3, k4, k5, k6, k7,
          k8, k9, k10, k11, k12, k13, k14, k15, _⟩ := deriveLive_inv hres
        injection h1.symm.trans k1 with e1
        subst e1
        injection h7.symm.trans k7 with e2
        subst e2
        injection hpi.symm.trans k11 with e3
        omega
    · cases hres : deriveMinecraftClockAtDate pd (some r) n with
      | none => rfl
      | some res =>
        exfalso
        obtain ⟨ts', sa', hp', mp', H, M, t0, k1, k2, k3, k4, k5, k6, k7,
          k8, k9, k10, k11, k12, k13, k14, k15, _⟩ := deriveAtDate_inv hres
        injection h1.symm.trans k1 with e1
        subst e1
        injection h7.symm.trans k7 with e2
        subst e2
        injection hpi.symm.trans k11 with e3
        omega
  · intro pd r n sa h2 hpd
    constructor
    · cases hres : deriveLiveMinecraftClock pd (some r) n with
      | none => rfl
      | some res =>
        exfalso
        obtain ⟨ts', sa', hp', mp', H, M, t0, k1, k2, k3, k4, k5, k6, k7,
          k8, k9, k10, k11, k12, k13, k14, k15, _⟩ := deriveLive_inv hres
        injection h2.symm.trans k2 with e1
        subst e1
        exact Option.noConfusion (hpd.symm.trans k5)
    · cases hres : deriveMinecraftClockAtDate pd (some r) n with
      | none => rfl
      | some res =>
        exfalso
        obtain ⟨ts', sa', hp', mp', H, M, t0, k1, k2, k3, k4, k5, k6, k7,
          k8, k9, k10, k11, k12, k13, k14, k15, _⟩ := deriveAtDate_inv hres
        injection h2.symm.trans k2 with e1
        subst e1
        exact Option.noConfusion (hpd.symm.trans k5)

/-- C6 witness: a missing row, an hour-24 reference, a minute-60 reference
and an unparseable timestamp, each at a concrete input. -/
theorem derive_null_on_bad_input_witness :
    (deriveLiveMinecraftClock parseDateJan2024 none 0 = none ∧
      deriveMinecraftClockAtDate parseDateJan2024 none 0 = none) ∧
    (deriveLiveMinecraftClock parseDateJan2024
        (some ⟨none, none, none, some "24:00",
          some "2024-01-01T00:00:00Z"⟩) 0 = none ∧
      deriveMinecraftClockAtDate parseDateJan2024
        (some ⟨none, none, none, some "24:00",
          some "2024-01-01T00:00:00Z"⟩) 0 = none) ∧
    (deriveLiveMinecraftClock parseDateJan2024
        (some ⟨none, none, none, some "06:60",
          some "2024-01-01T00:00:00Z"⟩) 0 = none ∧
      deriveMinecraftClockAtDate parseDateJan2024
        (some ⟨none, none, none, some "06:60",
          some "2024-01-01T00:00:00Z"⟩) 0 = none) ∧
    (deriveLiveMinecraftClock parseDateJan2024
        (some ⟨none, none, none, some "06:00", some "not-a-date"⟩) 0 =
          none ∧
      deriveMinecraftClockAtDate parseDateJan2024
        (some ⟨none, none, none, some "06:00", some "not-a-date"⟩) 0 =
          none) :=
  ⟨derive_null_on_bad_input.1 parseDateJan2024 0,
   derive_null_on_bad_input.2.1 parseDateJan2024
     ⟨none, none, none, some "24:00", some "2024-01-01T00:00:00Z"⟩ 0
     "24:00" "24" rfl (by decide) (by decide),
   derive_null_on_bad_input.2.2.1 parseDateJan2024
     ⟨none, none, none, some "06:60", some "2024-01-01T00:00:00Z"⟩ 0
     "06:60" "60" rfl (by decide) (by decide),
   derive_null_on_bad_input.2.2.2 parseDateJan2024
     ⟨none, none, none, some "06:00", some "not-a-date"⟩ 0
     "not-a-date" rfl (by decide)⟩

/-- C10: a reference time-of-day string with more than two colon-separated
segments is not rejected: whenever its first two segments parse to a valid
hour in [0,23] and minute in [0,59] (and the rest of the reference is valid),
both derivation operations return a non-null result, the extra segments being
ignored. -/
theorem extra_colon_segments_accepted (pd : String → Option ℤ)
    (r : SpawnTimerRow) (n t0 : ℤ) (ts sa hp mp : String) (H M : ℤ)
    (h1 : r.ingame_time = some ts) (h2 : r.ingame_time_saved_at = some sa)
    (h3 : ts ≠ "") (h4 : sa ≠ "") (h5 : pd sa = some t0)
    (hlen : 2 < (jsSplit ts ':').length)
    (h6 : (jsSplit ts ':')[0]? = some hp)
    (h7 : (jsSplit ts ':')[1]? = some mp)
    (h8 : hp ≠ "") (h9 : mp ≠ "")
    (h10 : jsParseInt hp = some H) (h11 : jsParseInt mp = some M)
    (h12 : 0 ≤ H) (h13 : H ≤ 23) (h14 : 0 ≤ M) (h15 : M ≤ 59) :
    (deriveLiveMinecraftClock pd (some r) n).isSome = true ∧
    (deriveMinecraftClockAtDate pd (some r) n).isSome = true := by
  constructor
  · rw [deriveLive_of_valid pd r n t0 ts sa hp mp H M h1 h2 h3 h4 h5 h6 h7
      h8 h9 h10 h11 h12 h13 h14 h15]
    rfl
  · rw [deriveAtDate_of_valid pd r n t0 ts sa hp mp H M h1 h2 h3 h4 h5 h6 h7
      h8 h9 h10 h11 h12 h13 h14 h15]
    rfl

/-- C10 witness: the reference string "06:30:45" (three segments) is
accepted by both operations. -/
theorem extra_colon_segments_accepted_witness :
    (deriveLiveMinecraftClock parseDateJan2024
        (some ⟨none, none, none, some "06:30:45",
          some "2024-01-01T00:00:00Z"⟩) 1704067227000).isSome = true ∧
    (deriveMinecraftClockAtDate parseDateJan2024
        (some ⟨none, none, none, some "06:30:45",
          some "2024-01-01T00:00:00Z"⟩) 1704067227000).isSome = true :=
  extra_colon_segments_accepted parseDateJan2024
    ⟨none, none, none, some "06:30:45", some "2024-01-01T00:00:00Z"⟩
    1704067227000 1704067200000 "06:30:45" "2024-01-01T00:00:00Z" "06" "30"
    6 30 rfl rfl (by decide) (by decide) (by decide) (by decide) (by decide)
    (by decide) (by decide) (by decide) (by decide) (by decide) (by decide)
    (by decide) (by decide) (by decide)

end LegsInfo
